import Mathlib

/-
Verification of the looseleaf layout core (src/src/looseleaf.h) against its
specification. The header provides the full data model (structs, enums,
handles) and one implemented function (ll_init); every behavioral function
(ll_begin, node creation, handle resolution, ll_gen_commands, the arena
allocator) is declared but left unimplemented in the source. Declarations and
data layout below are translated from the header; behavior of the declared-only
functions is modelled from the specification, with each such definition marked
by a doc comment starting "Modelled from the spec:".
-/

namespace LL

-- == basic data (src/src/looseleaf.h, helper data section) ==

/-- Error taxonomy. Modelled from the spec: §7 lists OutOfMemory,
StoreExhausted, StaleHandle, OutOfRange, CommandBufferExhausted; the header
declares no error type. -/
inductive LLError where
  | outOfMemory
  | storeExhausted
  | staleHandle
  | outOfRange
  | commandBufferExhausted
deriving DecidableEq

/-- Embeds ll_HorizAlign (header): LEFT, CENTER, RIGHT, in declaration order
(so LEFT is the C zero-initialized default). -/
inductive HorizAlign where
  | left
  | center
  | right
deriving DecidableEq

/-- Embeds ll_VertAlign (header): TOP, CENTER, BOTTOM, in declaration order
(so TOP is the C zero-initialized default). -/
inductive VertAlign where
  | top
  | center
  | bottom
deriving DecidableEq

/-- Embeds ll_Size (header): width and height are uint32_t; modelled as Nat
(the spec's sizing algebra, §4.3, is stated without wraparound). -/
structure Size where
  width : Nat
  height : Nat
deriving DecidableEq

/-- Embeds ll_Vec2 (header): x, y are int32_t signed pixel coordinates,
modelled as Int. -/
structure Vec2 where
  x : Int
  y : Int
deriving DecidableEq

/-- Embeds ll_TextConfig (header): additional spacing between letters,
int16_t, can be negative. -/
structure TextConfig where
  letter_spacing : Int
deriving DecidableEq

/-- Embeds ll_AboveConfig (header): horizontal alignment plus a signed pixel
offset. -/
structure AboveConfig where
  align_h : HorizAlign
  offset : Vec2
deriving DecidableEq

/-- Embeds ll_BesideConfig (header): vertical alignment plus a signed pixel
offset. -/
structure BesideConfig where
  align_v : VertAlign
  offset : Vec2
deriving DecidableEq

/-- Embeds ll_OverlayConfig (header): both alignments plus a signed pixel
offset. -/
structure OverlayConfig where
  align_h : HorizAlign
  align_v : VertAlign
  offset : Vec2
deriving DecidableEq

/-- Embeds ll_MovePinholeConfig (header): a signed pixel offset for the
pinhole. -/
structure MovePinholeConfig where
  offset : Vec2
deriving DecidableEq

/-- Default configuration. Modelled from the spec: "default (zero-offset,
top/left alignment) configuration"; matches C zero initialization of the
structs (first enum member, zero offset). -/
def defaultAboveConfig : AboveConfig := ⟨.left, ⟨0, 0⟩⟩

/-- Default beside configuration (TOP alignment, zero offset); see
defaultAboveConfig. -/
def defaultBesideConfig : BesideConfig := ⟨.top, ⟨0, 0⟩⟩

/-- Default overlay configuration (LEFT/TOP alignment, zero offset); see
defaultAboveConfig. -/
def defaultOverlayConfig : OverlayConfig := ⟨.left, .top, ⟨0, 0⟩⟩

/-- Embeds ll_Bounds (header): absolute position (ll_Vec2 posn) plus size
(ll_Size size), flattened to the four fields the spec names {x, y, w, h}. -/
structure Bounds where
  x : Int
  y : Int
  w : Nat
  h : Nat
deriving DecidableEq

/-- Embeds ll_RenderDataTag together with ll_RenderDataUnion (header): the
tag selects which union member (image data pointer, or text pointer) is
active, so the pair is a sum. Pointers are modelled as opaque Nat values. -/
inductive RenderData where
  | image (imageData : Nat)
  | text (content : String)
deriving DecidableEq

/-- Embeds ll_RenderCommand (header): resolved bounds plus tag-and-payload. -/
structure RenderCommand where
  bounds : Bounds
  render_data : RenderData
deriving DecidableEq

-- == arena allocator (header struct ll__Arena; spec §4.1 for behavior) ==

/-- Embeds ll__Arena (header, context data section): bump offset next_alloc
(uintptr_t), capacity (size_t), and base pointer mem (char*, modelled as an
opaque Nat address). -/
structure ll__Arena where
  next_alloc : Nat
  capacity : Nat
  mem : Nat
deriving DecidableEq

/-- Round offset up to the next multiple of align (no-op for align 0). -/
def ll__align_up (off align : Nat) : Nat :=
  if align = 0 then off else off + (align - off % align) % align

/-- Modelled from the spec: §4.1 `allocate(size, alignment) -> region`
"advances a monotonically increasing offset; fails with OutOfMemory if the
advance would exceed the buffer's capacity, leaving the allocator unchanged
(no partial allocation)". No allocator function is implemented in the header.
Returns the (possibly unchanged) arena and the start offset of the region on
success. -/
def ll__arena_alloc (a : ll__Arena) (size align : Nat) :
    ll__Arena × Except LLError Nat :=
  let start := ll__align_up a.next_alloc align
  if a.capacity < start + size then (a, .error .outOfMemory)
  else ({ a with next_alloc := start + size }, .ok start)

/-- Runs a sequence of allocations of the given sizes (alignment 1), threading
the arena through; used to state the spec's §8 allocation-sequence property. -/
def ll__arena_alloc_seq (a : ll__Arena) : List Nat → ll__Arena × List (Except LLError Nat)
  | [] => (a, [])
  | s :: rest =>
    let step := ll__arena_alloc a s 1
    let next := ll__arena_alloc_seq step.1 rest
    (next.1, step.2 :: next.2)

/-- The expected result list of a fully successful allocation run starting at
offset off: each call returns the running offset. Statement-side abbreviation
for the §8 allocation-sequence property. -/
def okOffsets : Nat → List Nat → List (Except LLError Nat)
  | _, [] => []
  | off, s :: rest => .ok off :: okOffsets (off + s) rest

-- == the C context struct and the one implemented function, ll_init ==

/-- Embeds ll__NodeArray (header): capacity, length (both uint32_t) and the
element pointer internalArray (modelled as an opaque Nat address). -/
structure ll__NodeArray where
  capacity : Nat
  length : Nat
  internalArray : Nat
deriving DecidableEq

/-- Embeds struct ll_Context (header, lines 421-425): max_nodes, the arena,
and the node array, exactly the three fields of the C struct. -/
structure ll_Context where
  max_nodes : Nat
  arena : ll__Arena
  nodes : ll__NodeArray
deriving DecidableEq

/-- Embeds the global `uint32_t ll__max_nodes = 4096` (header line 479), the
process-wide value set by ll_configure_max_nodes. -/
def ll__max_nodes : Nat := 4096

/-- Embeds ll_init (header lines 494-501): builds an ll__Arena from the two
arguments via a designated initializer (so next_alloc is zero-initialized) and
returns a context whose only explicitly set field is .arena (so max_nodes and
all three ll__NodeArray fields are zero-initialized). The function reads no
global state and performs no validation of arena_capacity. (The declaration's
return type is ll_Context*, while the definition returns the struct by value;
the field values are as modelled either way.) -/
def ll_init (arena_mem : Nat) (arena_capacity : Nat) : ll_Context :=
  { max_nodes := 0,
    arena := { next_alloc := 0, capacity := arena_capacity, mem := arena_mem },
    nodes := { capacity := 0, length := 0, internalArray := 0 } }

-- == node store with generation-stamped handles ==

/-- Embeds ll_NodeHandle (header: an opaque uint32_t). Modelled from the spec:
§3 "opaque value = (index into the node store, generation at creation time)";
the header leaves the packing of the two components into the uint32_t
unspecified, so the handle is modelled as the pair itself. -/
structure NodeHandle where
  index : Nat
  generation : Nat
deriving DecidableEq

/-- Embeds ll__Node (header): the data union (image data + size, text pointer,
one child, or two children), the config union, and the type tag, combined into
one sum with exactly the payload each tag makes active (the spec's §9 note on
the tagged-union representation). Pointers (image data) are opaque Nat values;
which config member accompanies which tag follows the per-constructor
ll_image/ll_text/ll_above/ll_beside/ll_overlay/ll_move_pinhole/ll_reset_pinhole
signatures in the header. -/
inductive NodeData where
  | image (image_data : Nat) (image_size : Size)
  | textNode (conf : TextConfig) (text_data : String)
  | above (conf : AboveConfig) (first_child second_child : NodeHandle)
  | beside (conf : BesideConfig) (first_child second_child : NodeHandle)
  | overlay (conf : OverlayConfig) (first_child second_child : NodeHandle)
  | movePinhole (conf : MovePinholeConfig) (child : NodeHandle)
  | resetPinhole (child : NodeHandle)
deriving DecidableEq

/-- The child handles a node references, structurally first child first
(per the header's first_child/second_child fields). -/
def nodeChildren : NodeData → List NodeHandle
  | .image _ _ => []
  | .textNode _ _ => []
  | .above _ a b => [a, b]
  | .beside _ a b => [a, b]
  | .overlay _ a b => [a, b]
  | .movePinhole _ c => [c]
  | .resetPinhole c => [c]

/-- Modelled from the spec: §3 Context = arena + node store + current
generation counter + configured capacities (max nodes, max render commands) +
measurement callbacks. The header's struct ll_Context (embedded above as
ll_Context) stops at {max_nodes, arena, nodes} because the store, generation
tracking and command buffer are unimplemented; this is the spec-complete
context those behaviors are modelled against. The node store is the list of
nodes created in the current generation (the logical content of the
arena-backed ll__NodeArray); the image-measurement callback is omitted because
ll_image takes the size directly (spec §4.3). -/
structure Ctx where
  max_nodes : Nat
  generation : Nat
  nodes : List NodeData
  arena : ll__Arena
  max_render_commands : Nat
  measure_text : String → Int → Size

/-- Modelled from the spec: §4.2 `resolve(handle)` "fails with StaleHandle if
handle.generation != store.generation, and with OutOfRange if the index is not
less than the current node count" (checked in that order), otherwise returns
the node. Unimplemented in the header. -/
def resolve (ctx : Ctx) (h : NodeHandle) : Except LLError NodeData :=
  if h.generation ≠ ctx.generation then .error .staleHandle
  else if hlt : h.index < ctx.nodes.length then .ok (ctx.nodes.get ⟨h.index, hlt⟩)
  else .error .outOfRange

/-- Modelled from the spec: §4.2 `create(variant, payload)` "appends into the
arena-backed store and fails with StoreExhausted if the node count equals the
configured maximum; otherwise returns a handle stamped with the store's
current generation" (index = position appended at). The failed call returns
the context unchanged. Unimplemented in the header. -/
def ll__node_create (ctx : Ctx) (n : NodeData) : Ctx × Except LLError NodeHandle :=
  if ctx.nodes.length = ctx.max_nodes then (ctx, .error .storeExhausted)
  else ({ ctx with nodes := ctx.nodes ++ [n] },
        .ok ⟨ctx.nodes.length, ctx.generation⟩)

/-- Modelled from the spec: §4.2 `begin()` "increments the generation counter
and sets node count to zero"; §4.1 reset "sets the offset back to zero;
callable only as part of Context begin". ll_begin is declared (header line
449) but unimplemented. Capacity configuration and callbacks persist. -/
def ll_begin (ctx : Ctx) : Ctx :=
  { ctx with
    generation := ctx.generation + 1,
    nodes := [],
    arena := { ctx.arena with next_alloc := 0 } }

/-- Modelled from the spec: §4.3 image leaf creation, natural size supplied by
the caller; declared as ll_image (header line 454) but unimplemented. The
context is threaded explicitly instead of through the header's global
ll__current_context (spec §9). -/
def ll_image (ctx : Ctx) (image_data : Nat) (image_size : Size) :
    Ctx × Except LLError NodeHandle :=
  ll__node_create ctx (.image image_data image_size)

/-- Modelled from the spec: §4.3 text leaf creation; declared as ll_text
(header line 456) but unimplemented. -/
def ll_text (ctx : Ctx) (conf : TextConfig) (content : String) :
    Ctx × Except LLError NodeHandle :=
  ll__node_create ctx (.textNode conf content)

/-- Modelled from the spec: §4.3 above combinator creation; declared as
ll_above (header line 458) but unimplemented. -/
def ll_above (ctx : Ctx) (conf : AboveConfig) (ab bl : NodeHandle) :
    Ctx × Except LLError NodeHandle :=
  ll__node_create ctx (.above conf ab bl)

/-- Modelled from the spec: §4.3 beside combinator creation; declared as
ll_beside (header line 460) but unimplemented. -/
def ll_beside (ctx : Ctx) (conf : BesideConfig) (l r : NodeHandle) :
    Ctx × Except LLError NodeHandle :=
  ll__node_create ctx (.beside conf l r)

/-- Modelled from the spec: §4.3 overlay combinator creation; declared as
ll_overlay (header line 462) but unimplemented. -/
def ll_overlay (ctx : Ctx) (conf : OverlayConfig) (ov un : NodeHandle) :
    Ctx × Except LLError NodeHandle :=
  ll__node_create ctx (.overlay conf ov un)

/-- Modelled from the spec: §4.3 move_pinhole creation; declared as
ll_move_pinhole (header line 464) but unimplemented. -/
def ll_move_pinhole (ctx : Ctx) (conf : MovePinholeConfig) (node : NodeHandle) :
    Ctx × Except LLError NodeHandle :=
  ll__node_create ctx (.movePinhole conf node)

/-- Modelled from the spec: §4.3 reset_pinhole creation; declared as
ll_reset_pinhole (header line 466) but unimplemented. -/
def ll_reset_pinhole (ctx : Ctx) (node : NodeHandle) :
    Ctx × Except LLError NodeHandle :=
  ll__node_create ctx (.resetPinhole node)

-- == layout engine (spec §4.3 / §4.4; ll_gen_commands is unimplemented) ==

/-- A fully resolved node tree: the result of dereferencing every handle
reachable from a root. Mirrors NodeData with handles replaced by subtrees; the
text leaf additionally carries its measured natural size (spec §4.3: text's
natural size comes from the text-measurement callback). The zero-size,
render-nothing EMPTY leaf is the constant the spec's §4.3 names for the
overlay identity (LL_EMPTY_LEAF in the README; absent from the header). -/
inductive Tree where
  | image (image_data : Nat) (image_size : Size)
  | text (conf : TextConfig) (content : String) (size : Size)
  | empty
  | above (conf : AboveConfig) (first second : Tree)
  | beside (conf : BesideConfig) (first second : Tree)
  | overlay (conf : OverlayConfig) (first second : Tree)
  | movePinhole (conf : MovePinholeConfig) (child : Tree)
  | resetPinhole (child : Tree)
deriving DecidableEq

/-- Modelled from the spec: §4.3 natural-size algebra, computed by the sizing
pass of §4.4. above: {max of widths, sum of heights}; beside: {sum of widths,
max of heights}; overlay: {max of widths, max of heights}; pinhole nodes do
not change size; EMPTY is zero-size. -/
def natSize : Tree → Size
  | .image _ sz => sz
  | .text _ _ sz => sz
  | .empty => ⟨0, 0⟩
  | .above _ a b =>
      ⟨max (natSize a).width (natSize b).width,
       (natSize a).height + (natSize b).height⟩
  | .beside _ a b =>
      ⟨(natSize a).width + (natSize b).width,
       max (natSize a).height (natSize b).height⟩
  | .overlay _ a b =>
      ⟨max (natSize a).width (natSize b).width,
       max (natSize a).height (natSize b).height⟩
  | .movePinhole _ t => natSize t
  | .resetPinhole t => natSize t

/-- Modelled from the spec: §4.3 a node's effective pinhole (the anchor a
parent uses when placing it). Default = the node's own top-left corner, i.e.
(0,0); move_pinhole shifts the current anchor by its offset; reset_pinhole
restores the default, discarding prior shifts. -/
def pinhole : Tree → Vec2
  | .movePinhole c t => ⟨c.offset.x + (pinhole t).x, c.offset.y + (pinhole t).y⟩
  | .resetPinhole _ => ⟨0, 0⟩
  | _ => ⟨0, 0⟩

/-- Modelled from the spec: §4.3 horizontal alignment offset within slack =
combined extent minus the child's extent: LEFT → 0; CENTER → slack/2, floor
division; RIGHT → slack. -/
def alignH : HorizAlign → Nat → Int
  | .left, _ => 0
  | .center, slack => (slack / 2 : Nat)
  | .right, slack => slack

/-- Modelled from the spec: §4.3 vertical alignment offset, mirror of alignH
(TOP → 0; CENTER → slack/2; BOTTOM → slack). -/
def alignV : VertAlign → Nat → Int
  | .top, _ => 0
  | .center, slack => (slack / 2 : Nat)
  | .bottom, slack => slack

/-- Number of render-emitting leaves (image or text) of a tree; pinhole nodes
and EMPTY emit nothing. -/
def leafCount : Tree → Nat
  | .image _ _ => 1
  | .text _ _ _ => 1
  | .empty => 0
  | .above _ a b => leafCount a + leafCount b
  | .beside _ a b => leafCount a + leafCount b
  | .overlay _ a b => leafCount a + leafCount b
  | .movePinhole _ t => leafCount t
  | .resetPinhole t => leafCount t

/-- The leaf payloads of a tree in the spec's §4.4 deterministic traversal
order: pre-order, structurally first child before second child. -/
def leavesData : Tree → List RenderData
  | .image d _ => [.image d]
  | .text _ s _ => [.text s]
  | .empty => []
  | .above _ a b => leavesData a ++ leavesData b
  | .beside _ a b => leavesData a ++ leavesData b
  | .overlay _ a b => leavesData a ++ leavesData b
  | .movePinhole _ t => leavesData t
  | .resetPinhole t => leavesData t

/-- Modelled from the spec: §4.4 placement pass. Given a node and the absolute
position assigned to it, emits one RenderCommand per leaf in pre-order (first
combinator argument before the second). Child positions follow §4.3: for
above, the first child is placed at the top, the second directly below (its y
advanced by the first child's height); each child is horizontally offset
within the combined width by alignH applied to its own slack (zero slack, so
zero offset, for the wider child) and config.offset is added to the narrower
child (on equal widths the spec does not name a narrower child; the second
child receives the offset). beside is the mirror on the orthogonal axis. For
overlay, the second child (under) sits at the combined origin and the first
(over) is aligned within the combined bounds, receiving config.offset. Every
child's assigned position is adjusted by that child's effective pinhole (§4.4
"adjusted by the child's effective pinhole"); the root's own pinhole is not
consulted because the root's position is caller-supplied. Pinhole nodes and
EMPTY emit nothing of their own. -/
def emit : Tree → Vec2 → List RenderCommand
  | .image d sz, p => [⟨⟨p.x, p.y, sz.width, sz.height⟩, .image d⟩]
  | .text _ s sz, p => [⟨⟨p.x, p.y, sz.width, sz.height⟩, .text s⟩]
  | .empty, _ => []
  | .above cfg a b, p =>
      let sa := natSize a
      let sb := natSize b
      let w := max sa.width sb.width
      let offA : Vec2 := if sa.width < sb.width then cfg.offset else ⟨0, 0⟩
      let offB : Vec2 := if sa.width < sb.width then ⟨0, 0⟩ else cfg.offset
      emit a ⟨p.x + alignH cfg.align_h (w - sa.width) + offA.x - (pinhole a).x,
              p.y + offA.y - (pinhole a).y⟩
        ++ emit b ⟨p.x + alignH cfg.align_h (w - sb.width) + offB.x - (pinhole b).x,
                   p.y + (sa.height : Int) + offB.y - (pinhole b).y⟩
  | .beside cfg a b, p =>
      let sa := natSize a
      let sb := natSize b
      let h := max sa.height sb.height
      let offA : Vec2 := if sa.height < sb.height then cfg.offset else ⟨0, 0⟩
      let offB : Vec2 := if sa.height < sb.height then ⟨0, 0⟩ else cfg.offset
      emit a ⟨p.x + offA.x - (pinhole a).x,
              p.y + alignV cfg.align_v (h - sa.height) + offA.y - (pinhole a).y⟩
        ++ emit b ⟨p.x + (sa.width : Int) + offB.x - (pinhole b).x,
                   p.y + alignV cfg.align_v (h - sb.height) + offB.y - (pinhole b).y⟩
  | .overlay cfg a b, p =>
      let sa := natSize a
      let sb := natSize b
      let w := max sa.width sb.width
      let h := max sa.height sb.height
      emit a ⟨p.x + alignH cfg.align_h (w - sa.width) + cfg.offset.x - (pinhole a).x,
              p.y + alignV cfg.align_v (h - sa.height) + cfg.offset.y - (pinhole a).y⟩
        ++ emit b ⟨p.x - (pinhole b).x, p.y - (pinhole b).y⟩
  | .movePinhole _ t, p => emit t p
  | .resetPinhole t, p => emit t p

/-- Modelled from the spec: resolves every handle reachable from a root into a
Tree, propagating the first resolve failure (§4.4: "resolving any handle
reachable from the root fails with StaleHandle or OutOfRange per 4.2, aborting
the whole layout pass"). Text natural size is obtained from the configured
text-measurement callback (§4.3). The fuel argument bounds recursion depth; a
store built through ll__node_create only references strictly earlier indices,
so fuel = node count + 1 always suffices, and exhaustion (which requires a
fabricated forward or cyclic handle) reports the defensive OutOfRange of
§4.2. -/
def resolveTree (ctx : Ctx) : Nat → NodeHandle → Except LLError Tree
  | 0, _ => .error .outOfRange
  | f + 1, h =>
    match resolve ctx h with
    | .error e => .error e
    | .ok (.image d sz) => .ok (.image d sz)
    | .ok (.textNode c s) => .ok (.text c s (ctx.measure_text s c.letter_spacing))
    | .ok (.above c a b) =>
      match resolveTree ctx f a with
      | .error e => .error e
      | .ok ta =>
        match resolveTree ctx f b with
        | .error e => .error e
        | .ok tb => .ok (.above c ta tb)
    | .ok (.beside c a b) =>
      match resolveTree ctx f a with
      | .error e => .error e
      | .ok ta =>
        match resolveTree ctx f b with
        | .error e => .error e
        | .ok tb => .ok (.beside c ta tb)
    | .ok (.overlay c a b) =>
      match resolveTree ctx f a with
      | .error e => .error e
      | .ok ta =>
        match resolveTree ctx f b with
        | .error e => .error e
        | .ok tb => .ok (.overlay c ta tb)
    | .ok (.movePinhole c a) =>
      match resolveTree ctx f a with
      | .error e => .error e
      | .ok ta => .ok (.movePinhole c ta)
    | .ok (.resetPinhole a) =>
      match resolveTree ctx f a with
      | .error e => .error e
      | .ok ta => .ok (.resetPinhole ta)

/-- Modelled from the spec: ll_gen_commands (declared, header line 469, but
unimplemented): the full layout pass of §4.4. Resolves the tree under the
root (aborting with the resolve error if any reachable handle is stale or out
of range, so no partial command list exists), runs the sizing and placement
passes (emit) from the caller-supplied root position, and fails with
CommandBufferExhausted when the emitted commands would exceed the configured
render-command capacity (§4.5). -/
def ll_gen_commands (ctx : Ctx) (root : NodeHandle) (origin : Vec2) :
    Except LLError (List RenderCommand) :=
  match resolveTree ctx (ctx.nodes.length + 1) root with
  | .error e => .error e
  | .ok t =>
    let cmds := emit t origin
    if ctx.max_render_commands < cmds.length then .error .commandBufferExhausted
    else .ok cmds

/-- Handle h2 is reachable from h in the store: reflexively, or through the
child handles of nodes that resolve successfully along the way. -/
inductive Reaches (ctx : Ctx) : NodeHandle → NodeHandle → Prop where
  | refl (h : NodeHandle) : Reaches ctx h h
  | step {h h2 h3 : NodeHandle} (n : NodeData)
      (hres : resolve ctx h = .ok n) (hmem : h2 ∈ nodeChildren n)
      (htail : Reaches ctx h2 h3) : Reaches ctx h h3

-- == concrete fixtures used by witnesses and scenario claims ==

/-- A fresh context with the given node and command capacities, generation 0,
an empty store, and a zero-size text measurer (no claim scenario uses text). -/
def mkCtx (maxN maxC : Nat) : Ctx :=
  { max_nodes := maxN, generation := 0, nodes := [],
    arena := ⟨0, 4096, 0⟩, max_render_commands := maxC,
    measure_text := fun _ _ => ⟨0, 0⟩ }

/-- The spec's §8 centering scenario, built through the recording API:
image of size {4,2}, image of size {2,2}, combined with above under CENTER
alignment and zero offset. The root handle is ⟨2, 0⟩. -/
def ctxC7 : Ctx :=
  (ll_above
    (ll_image (ll_image (mkCtx 16 16) 0 ⟨4, 2⟩).1 1 ⟨2, 2⟩).1
    ⟨.center, ⟨0, 0⟩⟩ ⟨0, 0⟩ ⟨1, 0⟩).1

-- ============================= theorems =====================================

-- helper lemmas shared across claims

/-- resolve fails with StaleHandle exactly when the generations mismatch. -/
theorem resolve_stale {ctx : Ctx} {h : NodeHandle}
    (hne : h.generation ≠ ctx.generation) :
    resolve ctx h = .error .staleHandle := by
  unfold resolve
  rw [if_pos hne]

/-- A resolve failure at the root aborts the whole layout pass with the same
error. -/
theorem ll_gen_commands_of_resolve_error {ctx : Ctx} {root : NodeHandle}
    {e : LLError} (origin : Vec2) (hres : resolve ctx root = .error e) :
    ll_gen_commands ctx root origin = .error e := by
  have hrt : resolveTree ctx (ctx.nodes.length + 1) root = .error e := by
    unfold resolveTree
    rw [hres]
  unfold ll_gen_commands
  rw [hrt]

/-- The placement pass emits exactly one command per render-emitting leaf. -/
theorem emit_length (t : Tree) : ∀ p : Vec2, (emit t p).length = leafCount t := by
  induction t with
  | image d sz => intro p; rfl
  | text c s sz => intro p; rfl
  | empty => intro p; rfl
  | above cfg a b iha ihb => intro p; simp [emit, leafCount, iha, ihb]
  | beside cfg a b iha ihb => intro p; simp [emit, leafCount, iha, ihb]
  | overlay cfg a b iha ihb => intro p; simp [emit, leafCount, iha, ihb]
  | movePinhole cfg t ih => intro p; simp [emit, leafCount, ih]
  | resetPinhole t ih => intro p; simp [emit, leafCount, ih]

/-- The payloads of the emitted commands are the leaves in pre-order,
independently of the position the tree is laid out at. -/
theorem emit_map_data (t : Tree) :
    ∀ p : Vec2, (emit t p).map RenderCommand.render_data = leavesData t := by
  induction t with
  | image d sz => intro p; rfl
  | text c s sz => intro p; rfl
  | empty => intro p; rfl
  | above cfg a b iha ihb => intro p; simp [emit, leavesData, iha, ihb]
  | beside cfg a b iha ihb => intro p; simp [emit, leavesData, iha, ihb]
  | overlay cfg a b iha ihb => intro p; simp [emit, leavesData, iha, ihb]
  | movePinhole cfg t ih => intro p; simp [emit, leavesData, ih]
  | resetPinhole t ih => intro p; simp [emit, leavesData, ih]

-- claim theorems

/-- Claim C10: ll_init succeeds for every arena pointer and capacity
(including 0, with no minimum-size validation) and returns a context whose
arena is {mem = arena_mem, capacity = arena_capacity, next_alloc = 0} and
whose remaining fields (max_nodes and all ll__NodeArray fields) are zero; in
particular the globally configured max_nodes value is not applied. -/
theorem ll_init_fields (arena_mem arena_capacity : Nat) :
    (ll_init arena_mem arena_capacity).arena.mem = arena_mem
    ∧ (ll_init arena_mem arena_capacity).arena.capacity = arena_capacity
    ∧ (ll_init arena_mem arena_capacity).arena.next_alloc = 0
    ∧ (ll_init arena_mem arena_capacity).max_nodes = 0
    ∧ (ll_init arena_mem arena_capacity).nodes = ⟨0, 0, 0⟩
    ∧ (ll_init arena_mem arena_capacity).max_nodes ≠ ll__max_nodes :=
  ⟨rfl, rfl, rfl, rfl, rfl, by simp [ll_init, ll__max_nodes]⟩

/-- Claim C2: under the default configuration the natural size of
above(a, b) is {max(a.w, b.w), a.h + b.h}, of beside(a, b) is
{a.w + b.w, max(a.h, b.h)}, and of overlay(a, b) is
{max(a.w, b.w), max(a.h, b.h)}, for all children a, b. -/
theorem combinator_natural_sizes (a b : Tree) :
    natSize (.above defaultAboveConfig a b)
      = ⟨max (natSize a).width (natSize b).width,
         (natSize a).height + (natSize b).height⟩
    ∧ natSize (.beside defaultBesideConfig a b)
      = ⟨(natSize a).width + (natSize b).width,
         max (natSize a).height (natSize b).height⟩
    ∧ natSize (.overlay defaultOverlayConfig a b)
      = ⟨max (natSize a).width (natSize b).width,
         max (natSize a).height (natSize b).height⟩ :=
  ⟨rfl, rfl, rfl⟩

/-- Claim C9: wrapping a node in move_pinhole changes neither its natural
size nor its own emitted render commands at any position; it only shifts the
node's effective pinhole (the anchor a parent combinator subtracts when
placing it as a child) by the configured offset. reset_pinhole also preserves
size and emission and restores the default top-left anchor, so a parent lays
out reset_pinhole(move_pinhole(o, t)) exactly like reset_pinhole(t). -/
theorem move_pinhole_anchor_only (o : MovePinholeConfig) (t u : Tree)
    (p : Vec2) (cfg : OverlayConfig) :
    natSize (.movePinhole o t) = natSize t
    ∧ emit (.movePinhole o t) p = emit t p
    ∧ pinhole (.movePinhole o t)
        = ⟨o.offset.x + (pinhole t).x, o.offset.y + (pinhole t).y⟩
    ∧ natSize (.resetPinhole t) = natSize t
    ∧ emit (.resetPinhole t) p = emit t p
    ∧ pinhole (.resetPinhole t) = ⟨0, 0⟩
    ∧ emit (.overlay cfg (.resetPinhole (.movePinhole o t)) u) p
        = emit (.overlay cfg (.resetPinhole t) u) p := by
  refine ⟨rfl, rfl, rfl, rfl, rfl, rfl, ?_⟩
  simp [emit, natSize, pinhole]

/-- Claim C8 counterexample: the claim quantifies over every node x, but for
a node with a non-default pinhole the overlay identity fails: placing
move_pinhole({1,2}, image) as a child of overlay adjusts its position by the
pinhole, while laying it out alone at the root position does not. -/
theorem overlay_empty_identity_counterexample :
    ¬ (emit (.overlay defaultOverlayConfig
          (.movePinhole ⟨⟨1, 2⟩⟩ (.image 7 ⟨3, 4⟩)) .empty) ⟨0, 0⟩
        = emit (.movePinhole ⟨⟨1, 2⟩⟩ (.image 7 ⟨3, 4⟩)) ⟨0, 0⟩) := by
  decide

/-- Claim C8 (amended): for every node x whose effective pinhole is the
default top-left anchor (in particular any node not wrapped in move_pinhole),
and every root position, overlay(default, EMPTY, x) and
overlay(default, x, EMPTY) yield exactly the render commands (and the natural
size) of laying out x alone at that position. -/
theorem overlay_empty_identity (x : Tree) (p : Vec2)
    (hx : pinhole x = ⟨0, 0⟩) :
    emit (.overlay defaultOverlayConfig .empty x) p = emit x p
    ∧ emit (.overlay defaultOverlayConfig x .empty) p = emit x p
    ∧ natSize (.overlay defaultOverlayConfig .empty x) = natSize x
    ∧ natSize (.overlay defaultOverlayConfig x .empty) = natSize x := by
  refine ⟨?_, ?_, ?_, ?_⟩
  · simp [emit, natSize, defaultOverlayConfig, alignH, alignV, hx]
  · simp [emit, natSize, defaultOverlayConfig, alignH, alignV, hx]
  · simp [natSize]
  · simp [natSize]

/-- Claim C8 witness: the amended identity at a concrete pinhole-free node
and root position. -/
theorem overlay_empty_identity_witness :
    emit (.overlay defaultOverlayConfig .empty (.image 3 ⟨2, 2⟩)) ⟨5, 6⟩
        = emit (.image 3 ⟨2, 2⟩) ⟨5, 6⟩
    ∧ emit (.overlay defaultOverlayConfig (.image 3 ⟨2, 2⟩) .empty) ⟨5, 6⟩
        = emit (.image 3 ⟨2, 2⟩) ⟨5, 6⟩
    ∧ natSize (.overlay defaultOverlayConfig .empty (.image 3 ⟨2, 2⟩))
        = natSize (.image 3 ⟨2, 2⟩)
    ∧ natSize (.overlay defaultOverlayConfig (.image 3 ⟨2, 2⟩) .empty)
        = natSize (.image 3 ⟨2, 2⟩) :=
  overlay_empty_identity (.image 3 ⟨2, 2⟩) ⟨5, 6⟩ rfl

-- arena allocation (claim C4)

/-- Alignment 1 never adds padding. -/
theorem ll__align_up_one (off : Nat) : ll__align_up off 1 = off := by
  simp [ll__align_up, Nat.mod_one]

/-- Unfolding equation for one step of an allocation run. -/
theorem ll__arena_alloc_seq_cons (a : ll__Arena) (q : Nat) (rest : List Nat) :
    ll__arena_alloc_seq a (q :: rest)
      = ((ll__arena_alloc_seq (ll__arena_alloc a q 1).1 rest).1,
         (ll__arena_alloc a q 1).2
           :: (ll__arena_alloc_seq (ll__arena_alloc a q 1).1 rest).2) := rfl

/-- A fitting allocation advances the offset by the requested size and
returns the old offset as the region start. -/
theorem ll__arena_alloc_ok (a : ll__Arena) (s : Nat)
    (h : a.next_alloc + s ≤ a.capacity) :
    ll__arena_alloc a s 1 = ({ a with next_alloc := a.next_alloc + s }, .ok a.next_alloc) := by
  simp only [ll__arena_alloc, ll__align_up_one]
  rw [if_neg (by omega)]

/-- An allocation that would overrun the capacity fails with OutOfMemory and
returns the arena unchanged. -/
theorem ll__arena_alloc_oom (a : ll__Arena) (s : Nat)
    (h : a.capacity < a.next_alloc + s) :
    ll__arena_alloc a s 1 = (a, .error .outOfMemory) := by
  simp only [ll__arena_alloc, ll__align_up_one]
  rw [if_pos h]

/-- Claim C4: in any allocation sequence whose cumulative size first exceeds
the remaining capacity at the last call, every earlier call succeeds and
returns the running offset (so the earlier regions are disjoint and stay
within capacity), the final call fails with OutOfMemory, and the arena after
the failed call still has the offset left by the successful calls — the
failure changes nothing. -/
theorem arena_alloc_oom_sequence (a : ll__Arena) (pre : List Nat) (s : Nat)
    (h1 : a.next_alloc + pre.sum ≤ a.capacity)
    (h2 : a.capacity < a.next_alloc + pre.sum + s) :
    ll__arena_alloc_seq a (pre ++ [s])
      = ({ a with next_alloc := a.next_alloc + pre.sum },
         okOffsets a.next_alloc pre ++ [.error .outOfMemory]) := by
  induction pre generalizing a with
  | nil =>
    simp only [List.sum_nil, Nat.add_zero] at h1 h2
    simp only [List.nil_append, okOffsets, List.nil_append]
    simp only [ll__arena_alloc_seq, ll__arena_alloc_oom a s h2]
    rfl
  | cons q pre ih =>
    have hsum : (q :: pre).sum = q + pre.sum := by simp
    rw [hsum] at h1 h2
    have hq : a.next_alloc + q ≤ a.capacity := by omega
    have hstep := ll__arena_alloc_ok a q hq
    have hrec := ih { a with next_alloc := a.next_alloc + q }
      (by show a.next_alloc + q + pre.sum ≤ a.capacity; omega)
      (by show a.capacity < a.next_alloc + q + pre.sum + s; omega)
    rw [List.cons_append, ll__arena_alloc_seq_cons, hstep]
    dsimp only
    rw [hrec, hsum]
    simp only [okOffsets, List.cons_append, Nat.add_assoc]

/-- Claim C4 witness: capacity 10, allocations 4, 3, 5 — the first two
succeed at offsets 0 and 4, the third fails, the offset stays 7. -/
theorem arena_alloc_oom_sequence_witness :
    ll__arena_alloc_seq ⟨0, 10, 0⟩ ([4, 3] ++ [5])
      = (⟨7, 10, 0⟩, [.ok 0, .ok 4, .error .outOfMemory]) := by
  have h := arena_alloc_oom_sequence ⟨0, 10, 0⟩ [4, 3] 5 (by decide) (by decide)
  rw [h]
  rfl

-- node store capacity (claim C5)

/-- Claim C5: creating a node in a store whose count has reached max_nodes
fails with StoreExhausted and leaves the context unchanged; ll_begin resets
the count to zero, after which creation succeeds again (at index 0, stamped
with the new generation) — and creation never pushes the count past
max_nodes. -/
theorem node_store_exhaustion (ctx : Ctx) (n m : NodeData)
    (hfull : ctx.nodes.length = ctx.max_nodes) (hpos : 0 < ctx.max_nodes) :
    ll__node_create ctx n = (ctx, .error .storeExhausted)
    ∧ (ll_begin ctx).nodes.length = 0
    ∧ (ll__node_create (ll_begin ctx) m).2 = .ok ⟨0, ctx.generation + 1⟩
    ∧ ((ll__node_create (ll_begin ctx) m).1).nodes.length = 1
    ∧ (∀ (c : Ctx) (k : NodeData), c.nodes.length ≤ c.max_nodes →
        ((ll__node_create c k).1).nodes.length ≤ c.max_nodes) := by
  refine ⟨?_, rfl, ?_, ?_, ?_⟩
  · unfold ll__node_create
    rw [if_pos hfull]
  · unfold ll__node_create ll_begin
    rw [if_neg (by simpa using by omega : ¬ (List.length [] = ctx.max_nodes))]
    rfl
  · unfold ll__node_create ll_begin
    rw [if_neg (by simpa using by omega : ¬ (List.length [] = ctx.max_nodes))]
    rfl
  · intro c k hle
    unfold ll__node_create
    split
    · exact hle
    · rename_i hne
      simp only [List.length_append, List.length_singleton]
      omega

/-- Claim C5 witness: with max_nodes = 1 and one node recorded, the next
creation fails and leaves the context unchanged; after ll_begin the count is
0 and creation succeeds with handle (0, generation 1). -/
theorem node_store_exhaustion_witness :
    ll__node_create
        { max_nodes := 1, generation := 0, nodes := [.image 0 ⟨1, 1⟩],
          arena := ⟨0, 4096, 0⟩, max_render_commands := 4,
          measure_text := fun _ _ => ⟨0, 0⟩ } (.image 1 ⟨1, 1⟩)
      = ({ max_nodes := 1, generation := 0, nodes := [.image 0 ⟨1, 1⟩],
           arena := ⟨0, 4096, 0⟩, max_render_commands := 4,
           measure_text := fun _ _ => ⟨0, 0⟩ }, .error .storeExhausted)
    ∧ (ll_begin
        { max_nodes := 1, generation := 0, nodes := [.image 0 ⟨1, 1⟩],
          arena := ⟨0, 4096, 0⟩, max_render_commands := 4,
          measure_text := fun _ _ => ⟨0, 0⟩ }).nodes.length = 0
    ∧ (ll__node_create (ll_begin
        { max_nodes := 1, generation := 0, nodes := [.image 0 ⟨1, 1⟩],
          arena := ⟨0, 4096, 0⟩, max_render_commands := 4,
          measure_text := fun _ _ => ⟨0, 0⟩ }) (.image 1 ⟨1, 1⟩)).2
      = .ok ⟨0, 0 + 1⟩
    ∧ ((ll__node_create (ll_begin
        { max_nodes := 1, generation := 0, nodes := [.image 0 ⟨1, 1⟩],
          arena := ⟨0, 4096, 0⟩, max_render_commands := 4,
          measure_text := fun _ _ => ⟨0, 0⟩ }) (.image 1 ⟨1, 1⟩)).1).nodes.length = 1
    ∧ (∀ (c : Ctx) (k : NodeData), c.nodes.length ≤ c.max_nodes →
        ((ll__node_create c k).1).nodes.length ≤ c.max_nodes) :=
  node_store_exhaustion _ (.image 1 ⟨1, 1⟩) (.image 1 ⟨1, 1⟩) rfl (by decide)

-- stale handles (claim C1)

/-- Claim C1: a handle returned by node creation is stamped with the context's
current generation; ll_begin increments the generation, after which resolving
the handle fails with StaleHandle, any layout pass rooted at it fails with
StaleHandle, and in general the handle resolves as stale in every context
whose generation differs from the stamp. -/
theorem stale_handle_after_begin (ctx c' : Ctx) (n : NodeData) (h : NodeHandle)
    (hc : ll__node_create ctx n = (c', .ok h)) :
    h.generation = c'.generation
    ∧ (ll_begin c').generation = c'.generation + 1
    ∧ resolve (ll_begin c') h = .error .staleHandle
    ∧ (∀ origin : Vec2, ll_gen_commands (ll_begin c') h origin = .error .staleHandle)
    ∧ (∀ c2 : Ctx, c2.generation ≠ h.generation → resolve c2 h = .error .staleHandle) := by
  unfold ll__node_create at hc
  split at hc
  · exact absurd hc (by simp)
  · injection hc with hc1 hc2
    injection hc2 with hc2
    subst hc1
    subst hc2
    have hstale : resolve (ll_begin { ctx with nodes := ctx.nodes ++ [n] })
        (⟨ctx.nodes.length, ctx.generation⟩ : NodeHandle) = .error .staleHandle :=
      resolve_stale (by show ctx.generation ≠ ctx.generation + 1; omega)
    refine ⟨rfl, rfl, hstale, ?_, ?_⟩
    · intro origin
      exact ll_gen_commands_of_resolve_error origin hstale
    · intro c2 hne
      exact resolve_stale (Ne.symm hne)

/-- Claim C1 witness: create an image node in a fresh context, call ll_begin,
and resolving the returned handle (0, generation 0) fails with StaleHandle. -/
theorem stale_handle_after_begin_witness :
    resolve (ll_begin (ll__node_create (mkCtx 4 4) (.image 0 ⟨1, 1⟩)).1) ⟨0, 0⟩
      = .error .staleHandle :=
  (stale_handle_after_begin (mkCtx 4 4) _ (.image 0 ⟨1, 1⟩) ⟨0, 0⟩ rfl).2.2.1

-- centering in above (claim C7)

/-- Claim C7: in above with CENTER alignment, whichever child is the narrower
one is horizontally offset by floor((combined − narrower)/2) within the
combined width (the wider child gets zero alignment offset) and config.offset
is then added to the narrower child's position — stated for both the
first-child-narrower and the second-child-narrower case; and in the spec's
concrete scenario — above({CENTER}, image {4,2}, image {2,2}) built through
the recording API — the layout pass emits the first child at bounds
{0,0,4,2} and the second at {1,2,2,2}. -/
theorem above_center_alignment (off : Vec2) (a b : Tree) (p : Vec2) :
    ((natSize a).width < (natSize b).width →
      emit (.above ⟨.center, off⟩ a b) p
        = emit a ⟨p.x + ((((natSize b).width - (natSize a).width) / 2 : Nat) : Int)
                     + off.x - (pinhole a).x,
                  p.y + off.y - (pinhole a).y⟩
          ++ emit b ⟨p.x - (pinhole b).x,
                     p.y + ((natSize a).height : Int) - (pinhole b).y⟩)
    ∧ ((natSize b).width < (natSize a).width →
      emit (.above ⟨.center, off⟩ a b) p
        = emit a ⟨p.x - (pinhole a).x, p.y - (pinhole a).y⟩
          ++ emit b ⟨p.x + ((((natSize a).width - (natSize b).width) / 2 : Nat) : Int)
                       + off.x - (pinhole b).x,
                     p.y + ((natSize a).height : Int) + off.y - (pinhole b).y⟩)
    ∧ ll_gen_commands ctxC7 ⟨2, 0⟩ ⟨0, 0⟩
        = .ok [⟨⟨0, 0, 4, 2⟩, .image 0⟩, ⟨⟨1, 2, 2, 2⟩, .image 1⟩] := by
  refine ⟨?_, ?_, rfl⟩
  · intro hn
    have hmax : max (natSize a).width (natSize b).width = (natSize b).width :=
      Nat.max_eq_right (Nat.le_of_lt hn)
    simp only [emit, hmax, if_pos hn, Nat.sub_self, alignH,
      Nat.zero_div, Nat.cast_zero, Int.add_zero, Int.zero_add, Int.sub_zero]
  · intro hn
    have hmax : max (natSize a).width (natSize b).width = (natSize a).width :=
      Nat.max_eq_left (Nat.le_of_lt hn)
    have hnlt : ¬ (natSize a).width < (natSize b).width := Nat.not_lt_of_gt hn
    simp only [emit, hmax, hnlt, if_false, if_neg hnlt, Nat.sub_self, alignH,
      Nat.zero_div, Nat.cast_zero, Int.add_zero, Int.zero_add, Int.sub_zero]

/-- Claim C7 witness: both general centering equations instantiated at image
leaves of widths 2 and 4 (either order) with config offset (3, 5): the
narrower child lands at x = (4−2)/2 + 3 = 4 in both orders, the wider child
at x = 0. -/
theorem above_center_alignment_witness :
    emit (.above ⟨.center, ⟨3, 5⟩⟩ (.image 0 ⟨2, 2⟩) (.image 1 ⟨4, 2⟩)) ⟨0, 0⟩
      = [⟨⟨4, 5, 2, 2⟩, .image 0⟩, ⟨⟨0, 2, 4, 2⟩, .image 1⟩]
    ∧ emit (.above ⟨.center, ⟨3, 5⟩⟩ (.image 0 ⟨4, 2⟩) (.image 1 ⟨2, 2⟩)) ⟨0, 0⟩
      = [⟨⟨0, 0, 4, 2⟩, .image 0⟩, ⟨⟨4, 7, 2, 2⟩, .image 1⟩] := by
  constructor
  · have h := (above_center_alignment ⟨3, 5⟩ (.image 0 ⟨2, 2⟩) (.image 1 ⟨4, 2⟩)
      ⟨0, 0⟩).1 (by decide)
    rw [h]
    decide
  · have h := (above_center_alignment ⟨3, 5⟩ (.image 0 ⟨4, 2⟩) (.image 1 ⟨2, 2⟩)
      ⟨0, 0⟩).2.1 (by decide)
    rw [h]
    decide

-- reachability and error propagation (claims C3, C6)

/-- resolve can only fail with StaleHandle or OutOfRange. -/
theorem resolve_error_cases {ctx : Ctx} {h : NodeHandle} {e : LLError}
    (he : resolve ctx h = .error e) : e = .staleHandle ∨ e = .outOfRange := by
  unfold resolve at he
  split at he
  · simp only [Except.error.injEq] at he
    exact Or.inl he.symm
  · split at he
    · exact absurd he (by simp)
    · simp only [Except.error.injEq] at he
      exact Or.inr he.symm

/-- resolveTree can only fail with StaleHandle or OutOfRange (fuel exhaustion
reports the defensive OutOfRange). -/
theorem resolveTree_error_cases (ctx : Ctx) :
    ∀ (f : Nat) (h : NodeHandle) (e : LLError),
      resolveTree ctx f h = .error e → e = .staleHandle ∨ e = .outOfRange := by
  intro f
  induction f with
  | zero =>
    intro h e he
    simp only [resolveTree, Except.error.injEq] at he
    exact Or.inr he.symm
  | succ f ih =>
    intro h e he
    unfold resolveTree at he
    cases hr : resolve ctx h with
    | error e0 =>
      rw [hr] at he
      simp only [Except.error.injEq] at he
      exact he ▸ resolve_error_cases hr
    | ok n =>
      rw [hr] at he
      cases n with
      | image d sz => simp at he
      | textNode c s => simp at he
      | above c a b =>
        simp only [] at he
        cases ha : resolveTree ctx f a with
        | error e1 =>
          rw [ha] at he
          simp only [Except.error.injEq] at he
          exact he ▸ ih a e1 ha
        | ok ta =>
          rw [ha] at he
          simp only [] at he
          cases hb : resolveTree ctx f b with
          | error e1 =>
            rw [hb] at he
            simp only [Except.error.injEq] at he
            exact he ▸ ih b e1 hb
          | ok tb => rw [hb] at he; simp at he
      | beside c a b =>
        simp only [] at he
        cases ha : resolveTree ctx f a with
        | error e1 =>
          rw [ha] at he
          simp only [Except.error.injEq] at he
          exact he ▸ ih a e1 ha
        | ok ta =>
          rw [ha] at he
          simp only [] at he
          cases hb : resolveTree ctx f b with
          | error e1 =>
            rw [hb] at he
            simp only [Except.error.injEq] at he
            exact he ▸ ih b e1 hb
          | ok tb => rw [hb] at he; simp at he
      | overlay c a b =>
        simp only [] at he
        cases ha : resolveTree ctx f a with
        | error e1 =>
          rw [ha] at he
          simp only [Except.error.injEq] at he
          exact he ▸ ih a e1 ha
        | ok ta =>
          rw [ha] at he
          simp only [] at he
          cases hb : resolveTree ctx f b with
          | error e1 =>
            rw [hb] at he
            simp only [Except.error.injEq] at he
            exact he ▸ ih b e1 hb
          | ok tb => rw [hb] at he; simp at he
      | movePinhole c a =>
        simp only [] at he
        cases ha : resolveTree ctx f a with
        | error e1 =>
          rw [ha] at he
          simp only [Except.error.injEq] at he
          exact he ▸ ih a e1 ha
        | ok ta => rw [ha] at he; simp at he
      | resetPinhole a =>
        simp only [] at he
        cases ha : resolveTree ctx f a with
        | error e1 =>
          rw [ha] at he
          simp only [Except.error.injEq] at he
          exact he ▸ ih a e1 ha
        | ok ta => rw [ha] at he; simp at he

/-- If resolveTree succeeds at a handle, that handle resolves and resolveTree
also succeeds (with one unit less fuel) at every child of its node. -/
theorem resolveTree_ok_resolve {ctx : Ctx} {f : Nat} {h : NodeHandle} {t : Tree}
    (hok : resolveTree ctx f h = .ok t) :
    ∃ n, resolve ctx h = .ok n
      ∧ ∀ h2 ∈ nodeChildren n, ∃ t2, resolveTree ctx (f - 1) h2 = .ok t2 := by
  cases f with
  | zero => simp [resolveTree] at hok
  | succ f =>
    unfold resolveTree at hok
    cases hr : resolve ctx h with
    | error e0 => rw [hr] at hok; simp at hok
    | ok n =>
      rw [hr] at hok
      refine ⟨n, rfl, ?_⟩
      cases n with
      | image d sz => intro h2 hmem; simp [nodeChildren] at hmem
      | textNode c s => intro h2 hmem; simp [nodeChildren] at hmem
      | above c a b =>
        simp only [] at hok
        cases ha : resolveTree ctx f a with
        | error e1 => rw [ha] at hok; simp at hok
        | ok ta =>
          rw [ha] at hok
          simp only [] at hok
          cases hb : resolveTree ctx f b with
          | error e1 => rw [hb] at hok; simp at hok
          | ok tb =>
            intro h2 hmem
            simp only [nodeChildren, List.mem_cons, List.not_mem_nil, or_false] at hmem
            rcases hmem with rfl | rfl
            · exact ⟨ta, ha⟩
            · exact ⟨tb, hb⟩
      | beside c a b =>
        simp only [] at hok
        cases ha : resolveTree ctx f a with
        | error e1 => rw [ha] at hok; simp at hok
        | ok ta =>
          rw [ha] at hok
          simp only [] at hok
          cases hb : resolveTree ctx f b with
          | error e1 => rw [hb] at hok; simp at hok
          | ok tb =>
            intro h2 hmem
            simp only [nodeChildren, List.mem_cons, List.not_mem_nil, or_false] at hmem
            rcases hmem with rfl | rfl
            · exact ⟨ta, ha⟩
            · exact ⟨tb, hb⟩
      | overlay c a b =>
        simp only [] at hok
        cases ha : resolveTree ctx f a with
        | error e1 => rw [ha] at hok; simp at hok
        | ok ta =>
          rw [ha] at hok
          simp only [] at hok
          cases hb : resolveTree ctx f b with
          | error e1 => rw [hb] at hok; simp at hok
          | ok tb =>
            intro h2 hmem
            simp only [nodeChildren, List.mem_cons, List.not_mem_nil, or_false] at hmem
            rcases hmem with rfl | rfl
            · exact ⟨ta, ha⟩
            · exact ⟨tb, hb⟩
      | movePinhole c a =>
        simp only [] at hok
        cases ha : resolveTree ctx f a with
        | error e1 => rw [ha] at hok; simp at hok
        | ok ta =>
          intro h2 hmem
          simp only [nodeChildren, List.mem_cons, List.not_mem_nil, or_false] at hmem
          subst hmem
          exact ⟨ta, ha⟩
      | resetPinhole a =>
        simp only [] at hok
        cases ha : resolveTree ctx f a with
        | error e1 => rw [ha] at hok; simp at hok
        | ok ta =>
          intro h2 hmem
          simp only [nodeChildren, List.mem_cons, List.not_mem_nil, or_false] at hmem
          subst hmem
          exact ⟨ta, ha⟩

/-- If resolveTree succeeds at a root, every handle reachable from that root
resolves successfully. -/
theorem reaches_resolve_ok {ctx : Ctx} {h h3 : NodeHandle}
    (hr : Reaches ctx h h3) :
    ∀ (f : Nat) (t : Tree), resolveTree ctx f h = .ok t →
      ∃ n, resolve ctx h3 = .ok n := by
  induction hr with
  | refl h =>
    intro f t hok
    obtain ⟨n, hn, _⟩ := resolveTree_ok_resolve hok
    exact ⟨n, hn⟩
  | step n hres hmem htail ih =>
    intro f t hok
    obtain ⟨n0, hn0, hch⟩ := resolveTree_ok_resolve hok
    rw [hres] at hn0
    simp only [Except.ok.injEq] at hn0
    subst hn0
    obtain ⟨t2, ht2⟩ := hch _ hmem
    exact ih _ _ ht2

/-- Claim C3: if any handle reachable from the root is unresolvable (stale or
out of range), the whole layout pass fails with StaleHandle or OutOfRange —
being an Except.error, it carries no partial command list; and if the tree
resolves but its leaf count exceeds the configured render-command capacity,
the pass fails with CommandBufferExhausted. -/
theorem ll_gen_commands_failure (ctx : Ctx) (root : NodeHandle) (origin : Vec2) :
    (∀ (hbad : NodeHandle) (e : LLError),
      Reaches ctx root hbad → resolve ctx hbad = .error e →
        ∃ e2, ll_gen_commands ctx root origin = .error e2
          ∧ (e2 = .staleHandle ∨ e2 = .outOfRange))
    ∧ (∀ t : Tree, resolveTree ctx (ctx.nodes.length + 1) root = .ok t →
        ctx.max_render_commands < leafCount t →
        ll_gen_commands ctx root origin = .error .commandBufferExhausted) := by
  constructor
  · intro hbad e hreach hbaderr
    cases hres : resolveTree ctx (ctx.nodes.length + 1) root with
    | ok t =>
      obtain ⟨n, hn⟩ := reaches_resolve_ok hreach _ _ hres
      rw [hbaderr] at hn
      exact absurd hn (by simp)
    | error e0 =>
      refine ⟨e0, ?_, resolveTree_error_cases ctx _ _ _ hres⟩
      unfold ll_gen_commands
      rw [hres]
  · intro t hres hcap
    unfold ll_gen_commands
    rw [hres]
    have hlen : ctx.max_render_commands < (emit t origin).length := by
      rw [emit_length]
      exact hcap
    simp only [if_pos hlen]

/-- Claim C3 witness: a context at generation 1 holding one node; the
handle (0, 0) from the previous generation is reachable (it is the root) and
stale, and the layout pass fails with StaleHandle. -/
theorem ll_gen_commands_failure_witness :
    ∃ e2, ll_gen_commands
        { max_nodes := 4, generation := 1, nodes := [.image 0 ⟨1, 1⟩],
          arena := ⟨0, 4096, 0⟩, max_render_commands := 4,
          measure_text := fun _ _ => ⟨0, 0⟩ } ⟨0, 0⟩ ⟨0, 0⟩ = .error e2
      ∧ (e2 = .staleHandle ∨ e2 = .outOfRange) :=
  (ll_gen_commands_failure _ ⟨0, 0⟩ ⟨0, 0⟩).1 ⟨0, 0⟩ .staleHandle
    (.refl _) rfl

/-- Claim C6: when the layout pass succeeds on a (resolved) tree, it emits
exactly one RenderCommand per leaf, their payloads are the tree's leaves in
pre-order with the structurally first combinator argument before the second,
and any successful run of the pass on the same unmodified tree yields the
same command sequence. -/
theorem ll_gen_commands_preorder (ctx : Ctx) (root : NodeHandle) (origin : Vec2)
    (t : Tree) (cmds : List RenderCommand)
    (hres : resolveTree ctx (ctx.nodes.length + 1) root = .ok t)
    (hok : ll_gen_commands ctx root origin = .ok cmds) :
    cmds.length = leafCount t
    ∧ cmds.map RenderCommand.render_data = leavesData t
    ∧ (∀ cmds2, ll_gen_commands ctx root origin = .ok cmds2 → cmds2 = cmds) := by
  have hcmds : cmds = emit t origin := by
    unfold ll_gen_commands at hok
    rw [hres] at hok
    simp only [] at hok
    split at hok
    · exact absurd hok (by simp)
    · simp only [Except.ok.injEq] at hok
      exact hok.symm
  subst hcmds
  refine ⟨emit_length t origin, emit_map_data t origin, ?_⟩
  intro cmds2 h2
  rw [hok] at h2
  simp only [Except.ok.injEq] at h2
  exact h2.symm

/-- Claim C6 witness: the spec scenario context — one emitted command per
leaf (two), payloads in first-child-first pre-order, and the successful pass
is functionally deterministic. -/
theorem ll_gen_commands_preorder_witness :
    (([⟨⟨0, 0, 4, 2⟩, .image 0⟩, ⟨⟨1, 2, 2, 2⟩, .image 1⟩] : List RenderCommand).length
        = leafCount (.above ⟨.center, ⟨0, 0⟩⟩ (.image 0 ⟨4, 2⟩) (.image 1 ⟨2, 2⟩)))
    ∧ (([⟨⟨0, 0, 4, 2⟩, .image 0⟩, ⟨⟨1, 2, 2, 2⟩, .image 1⟩] : List RenderCommand).map
          RenderCommand.render_data
        = leavesData (.above ⟨.center, ⟨0, 0⟩⟩ (.image 0 ⟨4, 2⟩) (.image 1 ⟨2, 2⟩)))
    ∧ (∀ cmds2, ll_gen_commands ctxC7 ⟨2, 0⟩ ⟨0, 0⟩ = .ok cmds2 →
        cmds2 = [⟨⟨0, 0, 4, 2⟩, .image 0⟩, ⟨⟨1, 2, 2, 2⟩, .image 1⟩]) :=
  ll_gen_commands_preorder ctxC7 ⟨2, 0⟩ ⟨0, 0⟩
    (.above ⟨.center, ⟨0, 0⟩⟩ (.image 0 ⟨4, 2⟩) (.image 1 ⟨2, 2⟩))
    [⟨⟨0, 0, 4, 2⟩, .image 0⟩, ⟨⟨1, 2, 2, 2⟩, .image 1⟩] rfl rfl

end LL
